import Mathlib

/-!
Shallow embedding of the `db` package of gdey/db_tutorial (the persistent,
pager-backed iteration of the storage engine) together with proofs about its
row codec, pager, table and cursor layers.

Modelling conventions:
* Machine bytes are `Nat` values (< 256 where it matters); `uint32`
  arithmetic is `Nat` arithmetic taken `% 2^32`.
* `Row` is the Go struct `{ID uint32; Username [32]byte; Email [255]byte}`;
  `unsafe.Sizeof(Row{})` is 292 on a 64-bit little-endian target
  (4 id bytes + 32 + 255 + 1 trailing alignment byte), so `RowSize = 292`,
  `RowsPerPage = 4096 / 292 = 14`, `TableMaxRows = 1400`.  The pointer-cast
  serialization is modelled as explicit little-endian field packing with a
  zero alignment byte (Go zero-initialises the struct, so the alignment byte
  of a parser-built row is zero).
* The backing file is a byte list plus the set of offsets at which `ReadAt`
  reports a hard (non-EOF) I/O error; a short read past end-of-file is the
  success case with fewer bytes, exactly as the Go code treats `io.EOF`.
* Go runtime panics (indexing the fixed page array out of range, the
  `panic(err)` in `numberOfRowsOnDisk`, a `ReadAt` at a negative offset) are
  the explicit error value `PagerErr.pagePanic`.
-/

namespace DbT

instance {ε α : Type _} [DecidableEq ε] [DecidableEq α] :
    DecidableEq (Except ε α) := fun x y =>
  match x, y with
  | .ok a, .ok b =>
    if h : a = b then isTrue (by rw [h]) else isFalse (by simp [h])
  | .ok _, .error _ => isFalse (by simp)
  | .error _, .ok _ => isFalse (by simp)
  | .error e, .error e' =>
    if h : e = e' then isTrue (by rw [h]) else isFalse (by simp [h])

/-- Modulus of Go `uint32` arithmetic. -/
def U32 : Nat := 4294967296

/-- Go constant `ColumnUsernameSize`. -/
def ColumnUsernameSize : Nat := 32

/-- Go constant `ColumnEmailSize`. -/
def ColumnEmailSize : Nat := 255

/-- Go constant `RowSize = unsafe.Sizeof(Row{})` (see module comment). -/
def RowSize : Nat := 292

/-- Go constant `PageSize`. -/
def PageSize : Nat := 4096

/-- Go constant `TableMaxPages`. -/
def TableMaxPages : Nat := 100

/-- Go constant `RowsPerPage = PageSize / RowSize`. -/
def RowsPerPage : Nat := PageSize / RowSize

/-- Go constant `TableMaxRows = RowsPerPage * TableMaxPages`. -/
def TableMaxRows : Nat := RowsPerPage * TableMaxPages

/-- Go struct `Row`: `ID uint32`, `Username [32]byte`, `Email [255]byte`.
The two buffers are the full fixed-width arrays (length 32 and 255). -/
structure Row where
  ID : Nat
  Username : List Nat
  Email : List Nat
deriving DecidableEq

/-- Little-endian 4-byte encoding of a `uint32` value. -/
def u32Bytes (n : Nat) : List Nat :=
  [n % 256, n / 256 % 256, n / 65536 % 256, n / 16777216 % 256]

/-- Little-endian 4-byte decoding, reading absent bytes as zero. -/
def u32OfBytes (l : List Nat) : Nat :=
  l.getD 0 0 + 256 * l.getD 1 0 + 65536 * l.getD 2 0 + 16777216 * l.getD 3 0

/-- Go `Row.Seralize` (sic): the struct's 292 in-memory bytes, i.e. the id as
a little-endian `uint32`, the two fixed-width buffers, and the zero alignment
byte. -/
def Row.Seralize (r : Row) : List Nat :=
  u32Bytes r.ID ++ r.Username ++ r.Email ++ [0]

/-- Go `DeseralizeRow`: reinterpret 292 bytes as a `Row`. -/
def DeseralizeRow (source : List Nat) : Row :=
  { ID := u32OfBytes source
    Username := (source.drop 4).take ColumnUsernameSize
    Email := (source.drop 36).take ColumnEmailSize }

/-- Truncate a byte buffer at its first zero byte (Go `bytes.IndexByte`
followed by reslicing; the whole buffer when no zero byte occurs). -/
def truncAtZero (l : List Nat) : List Nat :=
  l.takeWhile (fun b => b ≠ 0)

/-- Raw bytes printed as text, as Go `%s` does for ASCII data. -/
def strOfBytes (l : List Nat) : String :=
  String.mk (l.map Char.ofNat)

/-- Go `Row.String`: prints `(ID-1, username, email)` where `ID-1` is
`uint32` subtraction and the buffers are truncated at the first zero byte. -/
def Row.render (r : Row) : String :=
  "(" ++ toString ((r.ID + (U32 - 1)) % U32) ++ ", "
      ++ strOfBytes (truncAtZero r.Username) ++ ", "
      ++ strOfBytes (truncAtZero r.Email) ++ ")"

/-- The backing file: its bytes, plus the offsets at which `ReadAt` reports a
hard (non-EOF) I/O error. -/
structure File where
  data : List Nat
  failOffsets : List Nat
deriving DecidableEq

/-- Go `os.File.ReadAt` as used by the pager: either a hard error, or the
bytes available at `off` (short, possibly empty, at end-of-file — the `io.EOF`
case the callers tolerate). -/
def File.readAt (f : File) (off len : Nat) : Except Unit (List Nat) :=
  if off ∈ f.failOffsets then .error ()
  else .ok ((f.data.drop off).take len)

/-- Go `os.File.WriteAt`: replace `bs.length` bytes at `off`, zero-extending
the file first when `off` is past the current end. -/
def File.writeAt (f : File) (off : Nat) (bs : List Nat) : File :=
  { f with data :=
      (f.data ++ List.replicate (off - f.data.length) 0).take off
        ++ bs ++ f.data.drop (off + bs.length) }

/-- Go `type Page [RowsPerPage][RowSize]byte`: a list of `RowsPerPage` row
slots of `RowSize` bytes each. -/
def Page : Type := List (List Nat)

instance : DecidableEq Page := by
  unfold Page; infer_instance

/-- A freshly allocated all-zero page (`new(Page)`). -/
def zeroPage : Page :=
  List.replicate RowsPerPage (List.replicate RowSize 0)

/-- The row-slot copying loop of `Pager.Get`: slot `r` receives the 292 bytes
at offset `r * RowSize` of the zero-initialised 4096-byte read buffer, and the
loop breaks at the first slot whose start offset is at or past `bytesRead`
(such slots stay zero). -/
def loadPage (bs : List Nat) : Page :=
  (List.range RowsPerPage).map (fun r =>
    if r * RowSize < bs.length then
      (List.range RowSize).map (fun j => bs.getD (r * RowSize + j) 0)
    else
      List.replicate RowSize 0)

/-- Error outcomes of the pager: the explicit out-of-bounds error, a hard
I/O error, or a Go runtime panic (invalid index into the fixed page array,
or the `panic(err)` in `numberOfRowsOnDisk`). -/
inductive PagerErr where
  | outOfBounds
  | ioError
  | pagePanic
deriving DecidableEq

/-- Go struct `Pager`: backing file, recorded file length, and the fixed
array of `TableMaxPages` optional resident pages. -/
structure Pager where
  file : File
  Length : Nat
  pages : List (Option Page)
deriving DecidableEq

/-- Go `Pager.Get`.  Bounds guard `pageNum > TableMaxPages` first; then the
page-array access (which panics at `pageNum = TableMaxPages`, the index one
past the last valid one); a cache hit returns the resident page unchanged;
a cache miss reads the page from disk when `pageNum` is below the ceiling
page count of the recorded file length, and allocates an all-zero page
otherwise, caching the result either way. -/
def Pager.Get (p : Pager) (pageNum : Nat) : Except PagerErr (Page × Pager) :=
  if TableMaxPages < pageNum then .error .outOfBounds
  else if pageNum < TableMaxPages then
    match p.pages.getD pageNum none with
    | some page => .ok (page, p)
    | none =>
      let numberOfPages := p.Length / PageSize +
        (if p.Length % PageSize ≠ 0 then 1 else 0)
      if pageNum < numberOfPages then
        match p.file.readAt (pageNum * PageSize) PageSize with
        | .error _ => .error .ioError
        | .ok bs =>
          let page := loadPage bs
          .ok (page, { p with pages := p.pages.set pageNum (some page) })
      else
        .ok (zeroPage, { p with pages := p.pages.set pageNum (some zeroPage) })
  else .error .pagePanic

/-- Flatten a page back into `PageSize` bytes (the write buffer of
`Pager.Flush`; the tail past the last row slot stays zero). -/
def flattenPage (pg : Page) : List Nat :=
  (List.range PageSize).map (fun i =>
    if i < RowsPerPage * RowSize then (pg.getD (i / RowSize) []).getD (i % RowSize) 0
    else 0)

/-- Go `Pager.Flush`: same bounds guard and page-array access as `Get`;
a never-loaded page is a no-op; a resident page is flattened and written at
its page-aligned offset. -/
def Pager.Flush (p : Pager) (pageNum : Nat) : Except PagerErr Pager :=
  if TableMaxPages < pageNum then .error .outOfBounds
  else if pageNum < TableMaxPages then
    match p.pages.getD pageNum none with
    | none => .ok p
    | some pg =>
      .ok { p with file := p.file.writeAt (pageNum * PageSize) (flattenPage pg) }
  else .error .pagePanic

/-- The `uint32` id stored at row slot `i` of a 4096-byte page buffer
(first four bytes of the slot, absent bytes reading as zero). -/
def slotIdAt (bs : List Nat) (i : Nat) : Nat :=
  u32OfBytes ((bs.drop (i * RowSize)).take 4)

/-- The scan of `numberOfRowsOnDisk` over the last page: count the leading
row slots whose stored id is nonzero, stopping at the first zero id. -/
def countNonSentinel (bs : List Nat) : Nat :=
  ((List.range RowsPerPage).takeWhile (fun i => slotIdAt bs i ≠ 0)).length

/-- Go `Pager.numberOfRowsOnDisk`: zero for an empty file; otherwise read the
page at index `Length / PageSize - 1` and return
`(numberOfPages - 1) / RowsPerPage` (the code divides — it does not multiply)
plus the count of leading non-sentinel slots of that page.  A file shorter
than one page makes the read offset negative and the routine panic, as does a
hard read error (`panic(err)`). -/
def Pager.numberOfRowsOnDisk (p : Pager) : Except PagerErr Nat :=
  if p.Length = 0 then .ok 0
  else
    let numberOfPages := p.Length / PageSize
    if numberOfPages = 0 then .error .pagePanic
    else
      match p.file.readAt ((numberOfPages - 1) * PageSize) PageSize with
      | .error _ => .error .pagePanic
      | .ok bs =>
        if bs.length = 0 then .ok ((numberOfPages - 1) / RowsPerPage)
        else .ok ((numberOfPages - 1) / RowsPerPage + countNonSentinel bs)

/-- Go struct `Table`: logical row count over a pager. -/
structure Table where
  NumRows : Nat
  pager : Pager
deriving DecidableEq

/-- Go `Table.insertRow`: resolve `rowNum` to (page, offset) through
`Pager.Get` and overwrite that slot with the serialized row; the freshly
returned (and cached) page is mutated in place, so the cache slot of the
target page holds the updated page afterwards. -/
def Table.insertRow (tbl : Table) (rowNum : Nat) (row : Row) :
    Except PagerErr Table :=
  let pageNum := rowNum / RowsPerPage
  let rowOffset := rowNum % RowsPerPage
  match tbl.pager.Get pageNum with
  | .error e => .error e
  | .ok (pg, p') =>
    .ok { tbl with pager :=
      { p' with pages := p'.pages.set pageNum (some (pg.set rowOffset row.Seralize)) } }

/-- Execution results of the Go `db` package. -/
inductive ExecuteResult where
  | success
  | tableFull
  | failedFile
deriving DecidableEq

/-- Go `Table.executeInsert`: reject with `ExecuteTableFull` when
`NumRows >= TableMaxRows`; otherwise call `insertRow` at index `NumRows`,
DISCARD its error (the Go code ignores the returned `error`), increment
`NumRows` and report success. -/
def Table.executeInsert (tbl : Table) (row : Row) : ExecuteResult × Table :=
  if TableMaxRows ≤ tbl.NumRows then (.tableFull, tbl)
  else
    match tbl.insertRow tbl.NumRows row with
    | .ok tbl' => (.success, { tbl' with NumRows := tbl.NumRows + 1 })
    | .error _ => (.success, { tbl with NumRows := tbl.NumRows + 1 })

/-- Go struct `Cursor` (the owning-table pointer is passed explicitly). -/
structure Cursor where
  rowNumber : Nat
  EndOfTable : Bool
deriving DecidableEq

/-- Go `Table.CursorAtStart`. -/
def Table.CursorAtStart (tbl : Table) : Cursor :=
  { rowNumber := 0, EndOfTable := tbl.NumRows = 0 }

/-- Go `Table.CursorAtEnd`. -/
def Table.CursorAtEnd (tbl : Table) : Cursor :=
  { rowNumber := tbl.NumRows, EndOfTable := true }

/-- Go `Cursor.Advance`: increment the row number; set the end-of-table flag
once the row number reaches the table's row count (never unset it). -/
def Cursor.Advance (cur : Cursor) (tbl : Table) : Cursor :=
  let rn := cur.rowNumber + 1
  { rowNumber := rn
    EndOfTable := if tbl.NumRows ≤ rn then true else cur.EndOfTable }

/-- Go `Cursor.Value`: resolve the current row number to (page, offset),
fetch the page through the pager, and return that row slot (together with the
table whose pager cache the fetch may have populated). -/
def Cursor.Value (cur : Cursor) (tbl : Table) :
    Except PagerErr (List Nat × Table) :=
  let pageNum := cur.rowNumber / RowsPerPage
  let rowOffset := cur.rowNumber % RowsPerPage
  match tbl.pager.Get pageNum with
  | .error e => .error e
  | .ok (pg, p') => .ok (pg.getD rowOffset [], { tbl with pager := p' })

/-- The select loop of `executeSelect`, with explicit fuel (the Go loop needs
none: the cursor's row number strictly increases towards `NumRows`, which the
loop body never changes; `executeSelect` supplies fuel `NumRows + 1`, enough
for the start cursor to reach end-of-table).  Each iteration emits the
rendered current row; a `Cursor.Value` failure emits the failure message and
stops with `failedFile`. -/
def selectLoop (fuel : Nat) (tbl : Table) (cur : Cursor) :
    List String × ExecuteResult × Table :=
  match fuel with
  | 0 => ([], .success, tbl)
  | fuel + 1 =>
    if cur.EndOfTable then ([], .success, tbl)
    else
      match cur.Value tbl with
      | .error _ => (["failed to get row"], .failedFile, tbl)
      | .ok (slot, tbl') =>
        let line := (DeseralizeRow slot).render
        let rest := selectLoop fuel tbl' (cur.Advance tbl')
        (line :: rest.1, rest.2.1, rest.2.2)

/-- Go `Table.executeSelect`: open a start cursor and run the scan loop. -/
def Table.executeSelect (tbl : Table) : List String × ExecuteResult × Table :=
  selectLoop (tbl.NumRows + 1) tbl tbl.CursorAtStart

/-- Repeated `executeInsert`, one call per row of the list, collecting each
call's result (the command loop driving inserts one line at a time). -/
def insertSeq (tbl : Table) (rows : List Row) : List ExecuteResult × Table :=
  match rows with
  | [] => ([], tbl)
  | r :: rs =>
    let step := tbl.executeInsert r
    let rest := insertSeq step.2 rs
    (step.1 :: rest.1, rest.2)

/-- Prepare results of the Go `db` package. -/
inductive PrepareResult where
  | success
  | unrecognizedStatement
  | syntaxError
  | stringTooLong
  | negativeID
deriving DecidableEq

/-- Go `copy(dst[:], src)` into a zeroed fixed-width buffer of size `n`. -/
def padTo (n : Nat) (l : List Nat) : List Nat :=
  l.take n ++ List.replicate (n - l.length) 0

/-- A row built the way the insert branch of `prepareStatement` builds one:
the given key, and the two tokens copied into zeroed fixed-width buffers
(Go `copy` into the zero-initialised struct arrays). -/
def mkRow (key : Nat) (username email : List Nat) : Row :=
  { ID := key
    Username := padTo ColumnUsernameSize username
    Email := padTo ColumnEmailSize email }

/-- The insert branch of Go `prepareStatement`, after `Sscanf` has produced
the three tokens: reject an over-long username or email, then a negative id;
otherwise build the row with `ID = uint32(id + 1)` (Go conversion of the
non-negative 64-bit `id + 1`, i.e. reduction mod `2^32`) and the two tokens
copied into zeroed fixed-width buffers. -/
def prepareInsert (id : Int) (username email : List Nat) :
    Option Row × PrepareResult :=
  if ColumnUsernameSize < username.length then (none, .stringTooLong)
  else if ColumnEmailSize < email.length then (none, .stringTooLong)
  else if id < 0 then (none, .negativeID)
  else (some (mkRow (((id + 1).toNat) % U32) username email), .success)

/-- ASCII bytes of a string (the tokens of the claims are all ASCII). -/
def strBytes (s : String) : List Nat :=
  s.data.map Char.toNat

/-- Ceiling page count of the recorded file length, as computed inside
`Pager.Get`. -/
def Pager.ceilPages (p : Pager) : Nat :=
  p.Length / PageSize + (if p.Length % PageSize ≠ 0 then 1 else 0)

/-- The page a successful `Pager.Get` yields, as a pure function of the
current state: the cached page if resident, else the disk window (zero-filled
past end-of-file) if the page index is below the ceiling page count, else an
all-zero fresh page. -/
def Pager.viewPage (p : Pager) (pageNum : Nat) : Page :=
  match p.pages.getD pageNum none with
  | some pg => pg
  | none =>
    if pageNum < p.ceilPages then
      loadPage ((p.file.data.drop (pageNum * PageSize)).take PageSize)
    else zeroPage

/-- The bytes of row slot `i` in the read-through view. -/
def Table.slotView (tbl : Table) (i : Nat) : List Nat :=
  (tbl.pager.viewPage (i / RowsPerPage)).getD (i % RowsPerPage) []

/-- The rendered text of row `i` in the read-through view. -/
def Table.rowRender (tbl : Table) (i : Nat) : String :=
  (DeseralizeRow (tbl.slotView i)).render

/-- `Pager.Get` at `pageNum` will not fail with an I/O error: the page is
resident, or past the on-disk pages, or its read offset is not a failing
one. -/
def Pager.ReadOK (p : Pager) (pageNum : Nat) : Prop :=
  (p.pages.getD pageNum none).isSome = true
    ∨ p.ceilPages ≤ pageNum
    ∨ pageNum * PageSize ∉ p.file.failOffsets

instance (p : Pager) (pageNum : Nat) : Decidable (p.ReadOK pageNum) := by
  unfold Pager.ReadOK; infer_instance

/-- Structural well-formedness of a pager: the page array has exactly
`TableMaxPages` slots (it is a fixed-size array in Go), and every resident
page has exactly `RowsPerPage` row slots (it is a fixed-size array too). -/
def Pager.WF (p : Pager) : Prop :=
  p.pages.length = TableMaxPages ∧
  ∀ op ∈ p.pages, ∀ pg, op = some pg → pg.length = RowsPerPage

instance (p : Pager) : Decidable p.WF := by
  unfold Pager.WF; infer_instance

/-- One pager state evolves from another purely by page-cache population:
same file, same recorded length, same page-array size, and every page slot is
either untouched or goes from unloaded to holding exactly the read-through
view of that page. -/
def PagerEvolves (p p' : Pager) : Prop :=
  p'.file = p.file ∧ p'.Length = p.Length ∧ p'.pages.length = p.pages.length ∧
  ∀ m, p'.pages.getD m none = p.pages.getD m none ∨
    (p.pages.getD m none = none ∧ p'.pages.getD m none = some (p.viewPage m))

/-! ### Concrete instances used by the evaluations and witnesses -/

/-- A pager over a freshly created, empty database file, as `DBOpen` builds
it: zero length, no resident pages. -/
def emptyPager : Pager :=
  { file := { data := [], failOffsets := [] }
    Length := 0
    pages := List.replicate TableMaxPages none }

/-- A freshly opened empty table. -/
def emptyTable : Table := { NumRows := 0, pager := emptyPager }

/-- A table whose row count is at capacity (over the empty file). -/
def fullTable : Table := { NumRows := TableMaxRows, pager := emptyPager }

/-- The row `prepareStatement` builds for `insert 1 user1 person1@example.com`
(key `1 + 1 = 2`). -/
def rowUser1 : Row :=
  mkRow 2 (strBytes "user1") (strBytes "person1@example.com")

/-- A one-page backing file holding the single serialized `rowUser1`. -/
def fileOneRow : File := { data := rowUser1.Seralize, failOffsets := [] }

/-- A pager over `fileOneRow` with an empty cache. -/
def pagerOneRow : Pager :=
  { file := fileOneRow, Length := RowSize, pages := List.replicate TableMaxPages none }

/-- A table of one row backed by `fileOneRow`. -/
def tableOneRow : Table := { NumRows := 1, pager := pagerOneRow }

/-- The same pager after page 0 has been cached (here with an all-zero
page), exercising the cache-hit path. -/
def pagerHit : Pager :=
  { pagerOneRow with pages := pagerOneRow.pages.set 0 (some zeroPage) }

/-- A one-row table whose backing file reports a hard I/O error for the read
at offset 0 (the only page). -/
def tableOneRowBad : Table :=
  { NumRows := 1
    pager :=
      { file := { data := rowUser1.Seralize, failOffsets := [0] }
        Length := RowSize
        pages := List.replicate TableMaxPages none } }

/-- One stored row slot whose id byte is 1 followed by zeros. -/
def rowBytesC1 : List Nat := 1 :: List.replicate 291 0

/-- A full page worth of bytes, every slot id nonzero. -/
def fullPageC1 : List Nat := List.replicate 4096 7

/-- A page holding exactly one non-sentinel row slot. -/
def lastPageC1 : List Nat := rowBytesC1 ++ List.replicate 3804 0

/-- A two-page backing file: a full first page (14 rows) and a second page
holding one row — 15 rows on disk. -/
def pagerC1 : Pager :=
  { file := { data := fullPageC1 ++ lastPageC1, failOffsets := [] }
    Length := 8192
    pages := List.replicate TableMaxPages none }

/-! ### Pager.Get case lemmas -/

theorem rowsPerPage_eq : RowsPerPage = 14 := rfl

theorem tableMaxRows_eq : TableMaxRows = 1400 := rfl

theorem getD_set_eq {α : Type _} (l : List α) (n : Nat) (a d : α)
    (h : n < l.length) : (l.set n a).getD n d = a := by
  simp [List.getD_eq_getElem?_getD, List.getElem?_set_self', List.getElem?_eq_getElem h]

theorem getD_set_ne {α : Type _} (l : List α) (n m : Nat) (a d : α)
    (h : m ≠ n) : (l.set n a).getD m d = l.getD m d := by
  simp [List.getD_eq_getElem?_getD, List.getElem?_set_ne (by omega : n ≠ m)]

theorem Pager.ceilPages_def (p : Pager) :
    p.Length / PageSize + (if p.Length % PageSize ≠ 0 then 1 else 0) =
      p.ceilPages := rfl

theorem Pager.Get_oob (p : Pager) (n : Nat) (h : TableMaxPages < n) :
    p.Get n = .error .outOfBounds := by
  rw [Pager.Get, if_pos h]

theorem Pager.Get_at_max (p : Pager) :
    p.Get TableMaxPages = .error .pagePanic := by
  rw [Pager.Get, if_neg (by omega), if_neg (by omega)]

theorem Pager.Get_hit (p : Pager) (n : Nat) (hn : n < TableMaxPages) (pg : Page)
    (hc : p.pages.getD n none = some pg) : p.Get n = .ok (pg, p) := by
  rw [Pager.Get, if_neg (by omega), if_pos hn, hc]

theorem Pager.Get_miss_read (p : Pager) (n : Nat) (hn : n < TableMaxPages)
    (hc : p.pages.getD n none = none) (hlt : n < p.ceilPages) (bs : List Nat)
    (hr : p.file.readAt (n * PageSize) PageSize = .ok bs) :
    p.Get n =
      .ok (loadPage bs, { p with pages := p.pages.set n (some (loadPage bs)) }) := by
  rw [Pager.Get, if_neg (by omega), if_pos hn, hc]
  dsimp only
  rw [Pager.ceilPages_def, if_pos hlt, hr]

theorem Pager.Get_miss_fail (p : Pager) (n : Nat) (hn : n < TableMaxPages)
    (hc : p.pages.getD n none = none) (hlt : n < p.ceilPages)
    (hr : p.file.readAt (n * PageSize) PageSize = .error ()) :
    p.Get n = .error .ioError := by
  rw [Pager.Get, if_neg (by omega), if_pos hn, hc]
  dsimp only
  rw [Pager.ceilPages_def, if_pos hlt, hr]

theorem Pager.Get_miss_fresh (p : Pager) (n : Nat) (hn : n < TableMaxPages)
    (hc : p.pages.getD n none = none) (hge : p.ceilPages ≤ n) :
    p.Get n =
      .ok (zeroPage, { p with pages := p.pages.set n (some zeroPage) }) := by
  rw [Pager.Get, if_neg (by omega), if_pos hn, hc]
  dsimp only
  rw [Pager.ceilPages_def, if_neg (by omega)]

/-- A successful `Get` returns exactly the read-through view of the page. -/
theorem Pager.Get_ok_viewPage (p : Pager) (n : Nat) (pg : Page) (p' : Pager)
    (h : p.Get n = .ok (pg, p')) : pg = p.viewPage n := by
  by_cases hn : n < TableMaxPages
  · cases hc : p.pages.getD n none with
    | some pg0 =>
      rw [Pager.Get_hit p n hn pg0 hc] at h
      cases h
      rw [Pager.viewPage, hc]
    | none =>
      by_cases hlt : n < p.ceilPages
      · cases hr : p.file.readAt (n * PageSize) PageSize with
        | error e =>
          cases e
          rw [Pager.Get_miss_fail p n hn hc hlt hr] at h
          cases h
        | ok bs =>
          rw [Pager.Get_miss_read p n hn hc hlt bs hr] at h
          cases h
          rw [Pager.viewPage, hc]
          rw [if_pos hlt]
          have : (p.file.data.drop (n * PageSize)).take PageSize = bs := by
            rw [File.readAt] at hr
            split at hr
            · cases hr
            · cases hr
              rfl
          rw [this]
      · rw [Pager.Get_miss_fresh p n hn hc (by omega)] at h
        cases h
        rw [Pager.viewPage, hc]
        rw [if_neg hlt]
  · by_cases hgt : TableMaxPages < n
    · rw [Pager.Get_oob p n hgt] at h; cases h
    · have : n = TableMaxPages := by omega
      subst this
      rw [Pager.Get_at_max] at h; cases h

/-- A successful `Get` implies the page number was in bounds. -/
theorem Pager.Get_ok_lt (p : Pager) (n : Nat) (pg : Page) (p' : Pager)
    (h : p.Get n = .ok (pg, p')) : n < TableMaxPages := by
  by_contra hn
  by_cases hgt : TableMaxPages < n
  · rw [Pager.Get_oob p n hgt] at h; cases h
  · have : n = TableMaxPages := by omega
    subst this
    rw [Pager.Get_at_max] at h; cases h

/-- A successful `Get` only populates the page cache: the file, the recorded
length and all other page slots are untouched, and the fetched page is
resident afterwards. -/
theorem Pager.Get_ok_state (p : Pager) (n : Nat) (pg : Page) (p' : Pager)
    (hwf : p.pages.length = TableMaxPages)
    (h : p.Get n = .ok (pg, p')) :
    p'.file = p.file ∧ p'.Length = p.Length ∧
      p'.pages.getD n none = some pg ∧
      (∀ m, m ≠ n → p'.pages.getD m none = p.pages.getD m none) ∧
      p'.pages.length = p.pages.length := by
  have hn := Pager.Get_ok_lt p n pg p' h
  have hview := Pager.Get_ok_viewPage p n pg p' h
  cases hc : p.pages.getD n none with
  | some pg0 =>
    rw [Pager.Get_hit p n hn pg0 hc] at h
    cases h
    exact ⟨rfl, rfl, hc, fun m _ => rfl, rfl⟩
  | none =>
    have hset : p'.pages = p.pages.set n (some pg) ∧ p'.file = p.file ∧
        p'.Length = p.Length := by
      by_cases hlt : n < p.ceilPages
      · cases hr : p.file.readAt (n * PageSize) PageSize with
        | error e =>
          cases e
          rw [Pager.Get_miss_fail p n hn hc hlt hr] at h
          cases h
        | ok bs =>
          rw [Pager.Get_miss_read p n hn hc hlt bs hr] at h
          cases h
          exact ⟨rfl, rfl, rfl⟩
      · rw [Pager.Get_miss_fresh p n hn hc (by omega)] at h
        cases h
        exact ⟨rfl, rfl, rfl⟩
    obtain ⟨hpages, hfile, hlen⟩ := hset
    refine ⟨hfile, hlen, ?_, ?_, ?_⟩
    · rw [hpages]
      exact getD_set_eq _ _ _ _ (by omega)
    · intro m hm
      rw [hpages]
      exact getD_set_ne _ _ _ _ _ hm
    · rw [hpages, List.length_set]

/-! ### Evolution, views and read-availability -/

theorem PagerEvolves.refl (p : Pager) : PagerEvolves p p :=
  ⟨rfl, rfl, rfl, fun _ => Or.inl rfl⟩

theorem PagerEvolves.ceilPages_eq {p p' : Pager} (h : PagerEvolves p p') :
    p'.ceilPages = p.ceilPages := by
  rw [Pager.ceilPages, Pager.ceilPages, h.2.1]

theorem PagerEvolves.viewPage_eq {p p' : Pager} (h : PagerEvolves p p')
    (m : Nat) : p'.viewPage m = p.viewPage m := by
  rcases h.2.2.2 m with heq | ⟨hnone, hsome⟩
  · rw [Pager.viewPage, Pager.viewPage, heq, h.1, h.ceilPages_eq]
  · rw [Pager.viewPage, hsome]

theorem PagerEvolves.trans {p p' p'' : Pager}
    (h1 : PagerEvolves p p') (h2 : PagerEvolves p' p'') :
    PagerEvolves p p'' := by
  refine ⟨h2.1.trans h1.1, h2.2.1.trans h1.2.1, h2.2.2.1.trans h1.2.2.1, fun m => ?_⟩
  rcases h2.2.2.2 m with heq2 | ⟨hnone2, hsome2⟩
  · rw [heq2]
    exact h1.2.2.2 m
  · rcases h1.2.2.2 m with heq1 | ⟨hnone1, _⟩
    · rw [hsome2, h1.viewPage_eq]
      right
      exact ⟨heq1 ▸ hnone2, rfl⟩
    · rw [hnone2] at *
      right
      rw [hsome2, h1.viewPage_eq]
      exact ⟨hnone1, rfl⟩

theorem PagerEvolves.ReadOK {p p' : Pager} (h : PagerEvolves p p')
    (m : Nat) (hok : p.ReadOK m) : p'.ReadOK m := by
  rw [Pager.ReadOK] at hok ⊢
  rw [h.ceilPages_eq, h.1]
  rcases h.2.2.2 m with heq | ⟨_, hsome⟩
  · rw [heq]
    exact hok
  · left
    rw [hsome]
    rfl

theorem PagerEvolves.WF {p p' : Pager} (h : PagerEvolves p p') (hwf : p.WF)
    (hview : ∀ m, (p.viewPage m).length = RowsPerPage) : p'.WF := by
  obtain ⟨hlen, hpg⟩ := hwf
  refine ⟨h.2.2.1.trans hlen, ?_⟩
  intro op hop pg hpg'
  subst hpg'
  obtain ⟨i, hi, hget⟩ := List.getElem_of_mem hop
  have : p'.pages.getD i none = some pg := by
    rw [List.getD_eq_getElem?_getD, List.getElem?_eq_getElem hi, hget]
    rfl
  rcases h.2.2.2 i with heq | ⟨_, hsome⟩
  · rw [heq] at this
    have hmem : some pg ∈ p.pages := by
      rw [List.getD_eq_getElem?_getD] at this
      cases hx : p.pages[i]? with
      | none => rw [hx] at this; cases this
      | some op' =>
        rw [hx] at this
        cases this
        exact List.getElem?_mem hx
    exact hpg _ hmem pg rfl
  · rw [hsome] at this
    cases this
    exact hview i

/-- A `Get` success evolves the pager purely by cache population. -/
theorem Pager.Get_evolves (p : Pager) (n : Nat) (pg : Page) (p' : Pager)
    (hwf : p.pages.length = TableMaxPages)
    (h : p.Get n = .ok (pg, p')) : PagerEvolves p p' := by
  have hn := Pager.Get_ok_lt p n pg p' h
  have hview := Pager.Get_ok_viewPage p n pg p' h
  obtain ⟨hfile, hLen, hcached, hother, hlen⟩ := Pager.Get_ok_state p n pg p' hwf h
  refine ⟨hfile, hLen, hlen, fun m => ?_⟩
  by_cases hm : m = n
  · subst hm
    cases hc : p.pages.getD m none with
    | some pg0 =>
      left
      have hpg : pg = pg0 := by rw [hview, Pager.viewPage, hc]
      simp only [hcached, hc, hpg]
    | none =>
      right
      rw [hcached, hview]
      exact ⟨rfl, rfl⟩
  · left
    exact hother m hm

/-- When the page is in bounds and its read cannot fail, `Get` succeeds and
returns the read-through view. -/
theorem Pager.Get_ok_of_ReadOK (p : Pager) (n : Nat)
    (hn : n < TableMaxPages) (hok : p.ReadOK n) :
    ∃ p', p.Get n = .ok (p.viewPage n, p') := by
  cases hc : p.pages.getD n none with
  | some pg =>
    refine ⟨p, ?_⟩
    rw [Pager.Get_hit p n hn pg hc, Pager.viewPage, hc]
  | none =>
    by_cases hlt : n < p.ceilPages
    · have hnf : n * PageSize ∉ p.file.failOffsets := by
        rcases hok with h1 | h2 | h3
        · rw [hc] at h1; cases h1
        · omega
        · exact h3
      have hr : p.file.readAt (n * PageSize) PageSize =
          .ok ((p.file.data.drop (n * PageSize)).take PageSize) := by
        rw [File.readAt, if_neg hnf]
      have hv : p.viewPage n =
          loadPage ((p.file.data.drop (n * PageSize)).take PageSize) := by
        rw [Pager.viewPage, hc]
        dsimp only
        rw [if_pos hlt]
      rw [hv]
      exact ⟨_, Pager.Get_miss_read p n hn hc hlt _ hr⟩
    · have hv : p.viewPage n = zeroPage := by
        rw [Pager.viewPage, hc]
        dsimp only
        rw [if_neg hlt]
      rw [hv]
      exact ⟨_, Pager.Get_miss_fresh p n hn hc (by omega)⟩

/-- When the page is in bounds, not resident, on disk, and its offset fails,
`Get` reports the I/O error and leaves the pager unchanged. -/
theorem Pager.Get_fail_of_not_ReadOK (p : Pager) (n : Nat)
    (hn : n < TableMaxPages) (hok : ¬ p.ReadOK n) :
    p.Get n = .error .ioError := by
  rw [Pager.ReadOK] at hok
  push_neg at hok
  obtain ⟨h1, h2, h3⟩ := hok
  have hc : p.pages.getD n none = none := by
    cases hx : p.pages.getD n none with
    | none => rfl
    | some pg => rw [hx] at h1; simp at h1
  exact Pager.Get_miss_fail p n hn hc (by omega)
    (by rw [File.readAt, if_pos h3])

/-- Every read-through view page has exactly `RowsPerPage` slots, provided
resident pages do. -/
theorem Pager.viewPage_length (p : Pager) (hwf : p.WF) (m : Nat) :
    (p.viewPage m).length = RowsPerPage := by
  rw [Pager.viewPage]
  cases hc : p.pages.getD m none with
  | some pg =>
    have hmem : some pg ∈ p.pages := by
      rw [List.getD_eq_getElem?_getD] at hc
      cases hx : p.pages[m]? with
      | none => rw [hx] at hc; cases hc
      | some op' =>
        rw [hx] at hc
        cases hc
        exact List.getElem?_mem hx
    exact hwf.2 _ hmem pg rfl
  | none =>
    dsimp only
    split
    · rw [loadPage, List.length_map, List.length_range]
    · rw [zeroPage, List.length_replicate]

/-! ### Codec lemmas -/

theorem u32Bytes_length (n : Nat) : (u32Bytes n).length = 4 := rfl

theorem u32OfBytes_u32Bytes (n : Nat) (h : n < U32) :
    u32OfBytes (u32Bytes n) = n := by
  have hv : u32OfBytes (u32Bytes n) =
      n % 256 + 256 * (n / 256 % 256) + 65536 * (n / 65536 % 256)
        + 16777216 * (n / 16777216 % 256) := rfl
  rw [hv]
  unfold U32 at h
  omega

/-- Round-trip of the row codec on any well-formed row: reinterpreting the 292
serialized bytes recovers the row exactly. -/
theorem DeseralizeRow_Seralize (r : Row) (hid : r.ID < U32)
    (hu : r.Username.length = ColumnUsernameSize)
    (he : r.Email.length = ColumnEmailSize) :
    DeseralizeRow r.Seralize = r := by
  have h4 : (u32Bytes r.ID).length = 4 := rfl
  have hdrop4 : (r.Seralize).drop 4 = r.Username ++ (r.Email ++ [0]) := by
    rw [Row.Seralize, List.append_assoc, List.append_assoc, List.drop_left' h4]
  have hdrop36 : (r.Seralize).drop 36 = r.Email ++ [0] := by
    rw [Row.Seralize, show u32Bytes r.ID ++ r.Username ++ r.Email ++ [0]
        = (u32Bytes r.ID ++ r.Username) ++ (r.Email ++ [0]) by
      simp [List.append_assoc]]
    rw [List.drop_left' (by rw [List.length_append, h4, hu]; rfl)]
  have hID : u32OfBytes r.Seralize = r.ID := by
    have : ∀ l : List Nat, u32OfBytes (u32Bytes r.ID ++ l) = u32OfBytes (u32Bytes r.ID) := by
      intro l
      simp [u32Bytes, u32OfBytes, List.getD]
    rw [Row.Seralize, List.append_assoc, List.append_assoc, this,
      u32OfBytes_u32Bytes _ hid]
  rcases r with ⟨id, u, e⟩
  simp only [DeseralizeRow, Row.mk.injEq]
  refine ⟨hID, ?_, ?_⟩
  · rw [hdrop4, ← hu, List.take_left]
  · rw [hdrop36, List.take_left' he]

theorem padTo_length (n : Nat) (l : List Nat) : (padTo n l).length = n := by
  simp only [padTo, List.length_append, List.length_take, List.length_replicate]
  omega

/-! ### prepareInsert lemmas -/

/-- The insert preparation accepts exactly the in-range tokens and builds the
row with key `uint32(id + 1)` and zero-padded fixed-width buffers. -/
theorem prepareInsert_accepts (id : Int) (u e : List Nat)
    (hu : u.length ≤ ColumnUsernameSize) (he : e.length ≤ ColumnEmailSize)
    (hid : 0 ≤ id) :
    prepareInsert id u e =
      (some (mkRow ((id.toNat + 1) % U32) u e), .success) := by
  rw [prepareInsert, if_neg (by omega), if_neg (by omega), if_neg (by omega)]
  have : (id + 1).toNat = id.toNat + 1 := by omega
  rw [this]

/-! ### Table insert lemmas -/

theorem div_rowsPerPage_lt (n : Nat) (h : n < TableMaxRows) :
    n / RowsPerPage < TableMaxPages := by
  rw [tableMaxRows_eq] at h
  rw [rowsPerPage_eq]
  show n / 14 < 100
  omega

theorem mod_rowsPerPage_lt (n : Nat) : n % RowsPerPage < RowsPerPage := by
  rw [rowsPerPage_eq]
  omega

theorem Table.insertRow_ok (tbl : Table) (rowNum : Nat) (row : Row)
    (pg : Page) (p' : Pager)
    (hget : tbl.pager.Get (rowNum / RowsPerPage) = .ok (pg, p')) :
    tbl.insertRow rowNum row = .ok { tbl with pager :=
      { p' with pages :=
          p'.pages.set (rowNum / RowsPerPage) (some (pg.set (rowNum % RowsPerPage) row.Seralize)) } } := by
  rw [Table.insertRow, hget]

theorem Table.insertRow_err (tbl : Table) (rowNum : Nat) (row : Row)
    (e : PagerErr) (hget : tbl.pager.Get (rowNum / RowsPerPage) = .error e) :
    tbl.insertRow rowNum row = .error e := by
  rw [Table.insertRow, hget]

theorem Table.executeInsert_full (tbl : Table) (row : Row)
    (h : TableMaxRows ≤ tbl.NumRows) :
    tbl.executeInsert row = (.tableFull, tbl) := by
  rw [Table.executeInsert, if_pos h]

/-- Below capacity, `executeInsert` reports success and increments the row
count by exactly one — whether or not the page load inside `insertRow`
succeeded, because the Go code discards that error. -/
theorem Table.executeInsert_step (tbl : Table) (row : Row)
    (h : tbl.NumRows < TableMaxRows) :
    (tbl.executeInsert row).1 = .success ∧
      (tbl.executeInsert row).2.NumRows = tbl.NumRows + 1 := by
  rw [Table.executeInsert, if_neg (by omega)]
  cases hins : tbl.insertRow tbl.NumRows row with
  | ok tbl' => exact ⟨rfl, rfl⟩
  | error e => exact ⟨rfl, rfl⟩

/-- Below capacity, with the target page loadable, the insert writes the
serialized row into the slot at index `NumRows` (read-through view). -/
theorem Table.executeInsert_writes (tbl : Table) (row : Row)
    (hwf : tbl.pager.WF) (h : tbl.NumRows < TableMaxRows)
    (hok : tbl.pager.ReadOK (tbl.NumRows / RowsPerPage)) :
    (tbl.executeInsert row).2.slotView tbl.NumRows = row.Seralize := by
  have hn : tbl.NumRows / RowsPerPage < TableMaxPages :=
    div_rowsPerPage_lt _ h
  obtain ⟨p', hget⟩ := Pager.Get_ok_of_ReadOK tbl.pager _ hn hok
  obtain ⟨_, _, _, _, hplen⟩ :=
    Pager.Get_ok_state tbl.pager _ _ _ hwf.1 hget
  rw [Table.executeInsert, if_neg (by omega),
    Table.insertRow_ok tbl tbl.NumRows row _ p' hget]
  rw [Table.slotView]
  dsimp only
  rw [Pager.viewPage]
  dsimp only
  rw [getD_set_eq _ _ _ _ (by rw [hplen, hwf.1]; exact hn)]
  dsimp only
  rw [getD_set_eq _ _ _ _ ?hlt]
  case hlt =>
    rw [Pager.viewPage_length tbl.pager hwf]
    exact mod_rowsPerPage_lt _

theorem insertSeq_success (rows : List Row) (tbl : Table)
    (h : tbl.NumRows + rows.length ≤ TableMaxRows) :
    (insertSeq tbl rows).1 = List.replicate rows.length .success ∧
      (insertSeq tbl rows).2.NumRows = tbl.NumRows + rows.length := by
  induction rows generalizing tbl with
  | nil => exact ⟨rfl, rfl⟩
  | cons r rs ih =>
    rw [insertSeq]
    have hlt : tbl.NumRows < TableMaxRows := by
      have := List.length_cons r rs
      omega
    obtain ⟨hres, hnum⟩ := Table.executeInsert_step tbl r hlt
    have hrec := ih (tbl.executeInsert r).2 (by rw [hnum]; simp at h ⊢; omega)
    refine ⟨?_, ?_⟩
    · dsimp only
      rw [hres, hrec.1, List.length_cons, List.replicate_succ]
    · dsimp only
      rw [hrec.2, hnum, List.length_cons]
      omega

/-! ### Cursor and select-loop lemmas -/

theorem Table.slotView_congr (tbl : Table) (p' : Pager)
    (h : PagerEvolves tbl.pager p') (i : Nat) :
    Table.slotView { tbl with pager := p' } i = tbl.slotView i := by
  rw [Table.slotView, Table.slotView]
  dsimp only
  rw [h.viewPage_eq]

theorem Table.rowRender_congr (tbl : Table) (p' : Pager)
    (h : PagerEvolves tbl.pager p') (i : Nat) :
    Table.rowRender { tbl with pager := p' } i = tbl.rowRender i := by
  rw [Table.rowRender, Table.rowRender, Table.slotView_congr tbl p' h]

theorem Cursor.Value_of_Get_ok (tbl : Table) (k : Nat) (flag : Bool)
    (pg : Page) (p' : Pager)
    (hget : tbl.pager.Get (k / RowsPerPage) = .ok (pg, p')) :
    Cursor.Value ⟨k, flag⟩ tbl =
      .ok (pg.getD (k % RowsPerPage) [], { tbl with pager := p' }) := by
  rw [Cursor.Value]
  dsimp only
  rw [hget]

theorem Cursor.Value_of_Get_err (tbl : Table) (k : Nat) (flag : Bool)
    (e : PagerErr) (hget : tbl.pager.Get (k / RowsPerPage) = .error e) :
    Cursor.Value ⟨k, flag⟩ tbl = .error e := by
  rw [Cursor.Value]
  dsimp only
  rw [hget]

theorem Cursor.Advance_flag (tbl : Table) (k : Nat) (flag : Bool)
    (hflag : flag = decide (tbl.NumRows ≤ k)) :
    Cursor.Advance ⟨k, flag⟩ tbl =
      ⟨k + 1, decide (tbl.NumRows ≤ k + 1)⟩ := by
  by_cases h : tbl.NumRows ≤ k + 1
  · simp [Cursor.Advance, h]
  · simp [Cursor.Advance, h, hflag]
    omega

/-- Running the select loop from row `k` with every page readable emits the
renders of rows `k`, `k+1`, …, `NumRows - 1` in that order and succeeds,
evolving the pager only by cache population. -/
theorem selectLoop_ok (fuel : Nat) :
    ∀ (tbl : Table) (k : Nat), tbl.pager.WF → tbl.NumRows ≤ TableMaxRows →
    (∀ q, q < TableMaxPages → tbl.pager.ReadOK q) →
    tbl.NumRows ≤ k + fuel →
    ∃ p', selectLoop fuel tbl ⟨k, decide (tbl.NumRows ≤ k)⟩ =
        ((List.range' k (tbl.NumRows - k)).map tbl.rowRender, .success,
          { tbl with pager := p' }) ∧
      PagerEvolves tbl.pager p' := by
  induction fuel with
  | zero =>
    intro tbl k hwf hmax hok hfuel
    refine ⟨tbl.pager, ?_, PagerEvolves.refl _⟩
    rw [selectLoop, show tbl.NumRows - k = 0 by omega]
    rfl
  | succ fuel ih =>
    intro tbl k hwf hmax hok hfuel
    by_cases hend : tbl.NumRows ≤ k
    · refine ⟨tbl.pager, ?_, PagerEvolves.refl _⟩
      rw [selectLoop, if_pos (by simp [hend]), show tbl.NumRows - k = 0 by omega]
      rfl
    · have hpn : k / RowsPerPage < TableMaxPages :=
        div_rowsPerPage_lt _ (by omega)
      obtain ⟨p₁, hget⟩ := Pager.Get_ok_of_ReadOK tbl.pager _ hpn (hok _ hpn)
      have hev1 : PagerEvolves tbl.pager p₁ :=
        Pager.Get_evolves _ _ _ _ hwf.1 hget
      have hwf1 : Pager.WF p₁ := hev1.WF hwf (Pager.viewPage_length _ hwf)
      have hok1 : ∀ q, q < TableMaxPages → Pager.ReadOK p₁ q :=
        fun q hq => hev1.ReadOK q (hok q hq)
      obtain ⟨p₂, hloop, hev2⟩ :=
        ih { tbl with pager := p₁ } (k + 1) hwf1 hmax hok1
          (show tbl.NumRows ≤ k + 1 + fuel by omega)
      refine ⟨p₂, ?_, hev1.trans hev2⟩
      rw [selectLoop, if_neg (by simp [hend])]
      rw [Cursor.Value_of_Get_ok tbl k _ _ p₁ hget]
      dsimp only
      rw [Cursor.Advance_flag { tbl with pager := p₁ } k _ (by simp [hend])]
      rw [hloop]
      dsimp only
      have hmap : Table.rowRender { tbl with pager := p₁ } = tbl.rowRender :=
        funext (fun i => Table.rowRender_congr tbl p₁ hev1 i)
      rw [hmap]
      have hline :
          (DeseralizeRow
            ((tbl.pager.viewPage (k / RowsPerPage)).getD (k % RowsPerPage) [])).render
          = tbl.rowRender k := rfl
      rw [hline]
      rw [show tbl.NumRows - k = (tbl.NumRows - (k + 1)) + 1 by omega,
        List.range'_succ]
      rfl

theorem ReadOK_congr (p' p : Pager) (m : Nat)
    (hpages : p'.pages.getD m none = p.pages.getD m none)
    (hfile : p'.file = p.file) (hLen : p'.Length = p.Length) :
    p'.ReadOK m ↔ p.ReadOK m := by
  rw [Pager.ReadOK, Pager.ReadOK, hpages, hfile, Pager.ceilPages,
    Pager.ceilPages, hLen]

theorem div_lt_div_of_page_start (k' k : Nat) (h : k' < k)
    (h0 : k % RowsPerPage = 0) : k' / RowsPerPage < k / RowsPerPage := by
  rw [rowsPerPage_eq] at h0 ⊢
  omega

/-- Running the select loop from row `k'` when every row up to `k` is
readable but the (page-aligned) row `k` is not: the loop emits the renders of
rows `k'`, …, `k-1`, then the failure message, and stops with the
read-failure result. -/
theorem selectLoop_fail (fuel : Nat) :
    ∀ (tbl : Table) (k' k : Nat), tbl.pager.WF → tbl.NumRows ≤ TableMaxRows →
    k < tbl.NumRows → k' ≤ k → k % RowsPerPage = 0 →
    (∀ i, k' ≤ i → i < k → tbl.pager.ReadOK (i / RowsPerPage)) →
    ¬ tbl.pager.ReadOK (k / RowsPerPage) →
    k + 1 ≤ k' + fuel →
    ∃ tbl', selectLoop fuel tbl ⟨k', decide (tbl.NumRows ≤ k')⟩ =
      ((List.range' k' (k - k')).map tbl.rowRender ++ ["failed to get row"],
        .failedFile, tbl') := by
  induction fuel with
  | zero =>
    intro tbl k' k _ _ hk hk' _ _ _ hfuel
    omega
  | succ fuel ih =>
    intro tbl k' k hwf hmax hk hk' hk0 hbefore hfail hfuel
    have hend : ¬ tbl.NumRows ≤ k' := by omega
    by_cases heq : k' = k
    · subst heq
      have hpn : k' / RowsPerPage < TableMaxPages :=
        div_rowsPerPage_lt _ (by omega)
      refine ⟨tbl, ?_⟩
      rw [selectLoop, if_neg (by simp [hend])]
      rw [Cursor.Value_of_Get_err tbl k' _ .ioError
        (Pager.Get_fail_of_not_ReadOK _ _ hpn hfail)]
      rw [show k' - k' = 0 from by omega]
      rfl
    · have hk'lt : k' < k := by omega
      have hpn : k' / RowsPerPage < TableMaxPages :=
        div_rowsPerPage_lt _ (by omega)
      have hokk' : tbl.pager.ReadOK (k' / RowsPerPage) :=
        hbefore k' le_rfl hk'lt
      obtain ⟨p₁, hget⟩ := Pager.Get_ok_of_ReadOK tbl.pager _ hpn hokk'
      have hev1 : PagerEvolves tbl.pager p₁ :=
        Pager.Get_evolves _ _ _ _ hwf.1 hget
      have hwf1 : Pager.WF p₁ := hev1.WF hwf (Pager.viewPage_length _ hwf)
      have hne : k / RowsPerPage ≠ k' / RowsPerPage :=
        (div_lt_div_of_page_start k' k hk'lt hk0).ne'
      obtain ⟨hfile1, hLen1, _, hother1, _⟩ :=
        Pager.Get_ok_state tbl.pager _ _ _ hwf.1 hget
      have hfail1 : ¬ Pager.ReadOK p₁ (k / RowsPerPage) := by
        rw [ReadOK_congr p₁ tbl.pager _ (hother1 _ hne) hfile1 hLen1]
        exact hfail
      have hbefore1 : ∀ i, k' + 1 ≤ i → i < k →
          Pager.ReadOK p₁ (i / RowsPerPage) :=
        fun i h1 h2 => hev1.ReadOK _ (hbefore i (by omega) h2)
      obtain ⟨tbl'', hloop⟩ :=
        ih { tbl with pager := p₁ } (k' + 1) k hwf1 hmax hk
          (by omega) hk0 hbefore1 hfail1
          (show k + 1 ≤ k' + 1 + fuel by omega)
      refine ⟨tbl'', ?_⟩
      rw [selectLoop, if_neg (by simp [hend])]
      rw [Cursor.Value_of_Get_ok tbl k' _ _ p₁ hget]
      dsimp only
      rw [Cursor.Advance_flag { tbl with pager := p₁ } k' _ (by simp [hend])]
      rw [hloop]
      dsimp only
      have hmap : Table.rowRender { tbl with pager := p₁ } = tbl.rowRender :=
        funext (fun i => Table.rowRender_congr tbl p₁ hev1 i)
      rw [hmap]
      have hline :
          (DeseralizeRow
            ((tbl.pager.viewPage (k' / RowsPerPage)).getD (k' % RowsPerPage) [])).render
          = tbl.rowRender k' := rfl
      rw [hline]
      rw [show k - k' = (k - (k' + 1)) + 1 by omega, List.range'_succ]
      rfl

theorem Table.CursorAtStart_flag (tbl : Table) :
    tbl.CursorAtStart = ⟨0, decide (tbl.NumRows ≤ 0)⟩ := by
  rw [Table.CursorAtStart]
  simp [Nat.le_zero]

/-- With every page readable, `executeSelect` renders rows `0 … NumRows-1` in
index order, succeeds, and evolves only the page cache. -/
theorem Table.executeSelect_ok (tbl : Table) (hwf : tbl.pager.WF)
    (hmax : tbl.NumRows ≤ TableMaxRows)
    (hok : ∀ q, q < TableMaxPages → tbl.pager.ReadOK q) :
    ∃ p', tbl.executeSelect =
        ((List.range tbl.NumRows).map tbl.rowRender, .success,
          { tbl with pager := p' }) ∧ PagerEvolves tbl.pager p' := by
  obtain ⟨p', h, hev⟩ :=
    selectLoop_ok (tbl.NumRows + 1) tbl 0 hwf hmax hok (by omega)
  refine ⟨p', ?_, hev⟩
  rw [Table.executeSelect, Table.CursorAtStart_flag, h, Nat.sub_zero,
    ← List.range_eq_range']

/-- With rows before `k` readable and the page-aligned row `k` unreadable,
`executeSelect` renders rows `0 … k-1`, emits the failure message, and stops
with the read-failure result. -/
theorem Table.executeSelect_fail (tbl : Table) (k : Nat)
    (hwf : tbl.pager.WF) (hmax : tbl.NumRows ≤ TableMaxRows)
    (hk : k < tbl.NumRows) (hk0 : k % RowsPerPage = 0)
    (hbefore : ∀ i, i < k → tbl.pager.ReadOK (i / RowsPerPage))
    (hfail : ¬ tbl.pager.ReadOK (k / RowsPerPage)) :
    ∃ tbl', tbl.executeSelect =
      ((List.range k).map tbl.rowRender ++ ["failed to get row"],
        .failedFile, tbl') := by
  obtain ⟨tbl', h⟩ :=
    selectLoop_fail (tbl.NumRows + 1) tbl 0 k hwf hmax hk (by omega) hk0
      (fun i _ hik => hbefore i hik) hfail (by omega)
  refine ⟨tbl', ?_⟩
  rw [Table.executeSelect, Table.CursorAtStart_flag, h, Nat.sub_zero,
    ← List.range_eq_range']

theorem Cursor.Value_ok_inv (cur : Cursor) (tbl : Table) (slot : List Nat)
    (tbl₁ : Table) (h : cur.Value tbl = .ok (slot, tbl₁)) :
    ∃ pg p₁, tbl.pager.Get (cur.rowNumber / RowsPerPage) = .ok (pg, p₁) ∧
      slot = pg.getD (cur.rowNumber % RowsPerPage) [] ∧
      tbl₁ = { tbl with pager := p₁ } := by
  rw [Cursor.Value] at h
  cases hget : tbl.pager.Get (cur.rowNumber / RowsPerPage) with
  | error e =>
    rw [hget] at h
    cases h
  | ok pr =>
    obtain ⟨pg, p₁⟩ := pr
    rw [hget] at h
    dsimp only at h
    cases h
    exact ⟨pg, p₁, rfl, rfl, rfl⟩

/-- Unconditionally (whatever the cursor, whether or not reads fail), the
select loop leaves the row count unchanged and evolves the pager only by
cache population. -/
theorem selectLoop_frame (fuel : Nat) :
    ∀ (tbl : Table) (cur : Cursor), tbl.pager.WF →
    ∃ p', (selectLoop fuel tbl cur).2.2 = { tbl with pager := p' } ∧
      PagerEvolves tbl.pager p' := by
  induction fuel with
  | zero =>
    intro tbl cur _
    exact ⟨tbl.pager, rfl, PagerEvolves.refl _⟩
  | succ fuel ih =>
    intro tbl cur hwf
    by_cases hend : cur.EndOfTable = true
    · exact ⟨tbl.pager, by rw [selectLoop, if_pos hend], PagerEvolves.refl _⟩
    · cases hv : cur.Value tbl with
      | error e =>
        exact ⟨tbl.pager, by rw [selectLoop, if_neg hend, hv],
          PagerEvolves.refl _⟩
      | ok pr =>
        obtain ⟨slot, tbl₁⟩ := pr
        obtain ⟨pg, p₁, hget, _, htbl₁⟩ := Cursor.Value_ok_inv cur tbl slot tbl₁ hv
        have hev1 : PagerEvolves tbl.pager p₁ :=
          Pager.Get_evolves _ _ _ _ hwf.1 hget
        have hwf1 : Pager.WF p₁ := hev1.WF hwf (Pager.viewPage_length _ hwf)
        subst htbl₁
        obtain ⟨p₂, hrest, hev2⟩ :=
          ih { tbl with pager := p₁ } (cur.Advance { tbl with pager := p₁ }) hwf1
        refine ⟨p₂, ?_, hev1.trans hev2⟩
        rw [selectLoop, if_neg hend, hv]
        dsimp only
        exact hrest

/-! ### Further support lemmas -/

/-- Symbolic run of `numberOfRowsOnDisk` on a non-empty file of at least one
whole page whose last-page read succeeds with data. -/
theorem numberOfRowsOnDisk_run (p : Pager) (bs : List Nat)
    (h0 : ¬ p.Length = 0) (hp : ¬ p.Length / PageSize = 0)
    (hread : p.file.readAt ((p.Length / PageSize - 1) * PageSize) PageSize = .ok bs)
    (hbs : ¬ bs.length = 0) :
    p.numberOfRowsOnDisk =
      .ok ((p.Length / PageSize - 1) / RowsPerPage + countNonSentinel bs) := by
  rw [Pager.numberOfRowsOnDisk, if_neg h0]
  dsimp only
  rw [if_neg hp, hread]
  dsimp only
  rw [if_neg hbs]

theorem getD_replicate (n j : Nat) (x d : Nat) (h : j < n) :
    (List.replicate n x).getD j d = x := by
  simp [List.getD_eq_getElem?_getD, List.getElem?_replicate, h]

/-- Byte-level content of a page loaded from a window of the file: slot `r`,
byte `j` is the file byte at `off + r * RowSize + j`, reading zero past
end-of-file. -/
theorem loadPage_getD (data : List Nat) (off r j : Nat)
    (hr : r < RowsPerPage) (hj : j < RowSize) :
    ((loadPage ((data.drop off).take PageSize)).getD r []).getD j 0 =
      data.getD (off + r * RowSize + j) 0 := by
  have hr14 : r < 14 := by rw [rowsPerPage_eq] at hr; exact hr
  have hj292 : j < 292 := hj
  have hslot : (loadPage ((data.drop off).take PageSize)).getD r [] =
      if r * RowSize < ((data.drop off).take PageSize).length then
        (List.range RowSize).map
          (fun j => ((data.drop off).take PageSize).getD (r * RowSize + j) 0)
      else List.replicate RowSize 0 := by
    rw [loadPage, List.getD_eq_getElem?_getD, List.getElem?_map,
      List.getElem?_range hr]
    rfl
  have hblen : ((data.drop off).take PageSize).length =
      min PageSize (data.length - off) := by
    rw [List.length_take, List.length_drop]
  have hidx : ∀ i, i < PageSize →
      ((data.drop off).take PageSize).getD i 0 = data.getD (off + i) 0 := by
    intro i hi
    rw [List.getD_eq_getElem?_getD, List.getElem?_take, if_pos hi,
      List.getElem?_drop, ← List.getD_eq_getElem?_getD]
  rw [hslot]
  by_cases hlt : r * RowSize < ((data.drop off).take PageSize).length
  · rw [if_pos hlt]
    have hji : ((List.range RowSize).map
          (fun j => ((data.drop off).take PageSize).getD (r * RowSize + j) 0)).getD j 0 =
        ((data.drop off).take PageSize).getD (r * RowSize + j) 0 := by
      rw [List.getD_eq_getElem?_getD, List.getElem?_map, List.getElem?_range hj]
      rfl
    rw [hji, hidx (r * RowSize + j)
      (by rw [rowsPerPage_eq] at hr; show r * 292 + j < 4096; omega)]
    rw [Nat.add_assoc]
  · rw [if_neg hlt]
    rw [getD_replicate _ _ _ _ hj]
    have hout : data.length ≤ off + r * RowSize + j := by
      rw [hblen] at hlt
      rw [show RowSize = 292 from rfl] at hlt ⊢
      rw [show PageSize = 4096 from rfl] at hlt
      omega
    rw [List.getD_eq_default _ _ hout]

/-- In bounds, `Get` either succeeds or reports the I/O read error — the two
non-panic, non-out-of-bounds outcomes. -/
theorem Pager.Get_lt_cases (p : Pager) (n : Nat) (hn : n < TableMaxPages) :
    (∃ pg p', p.Get n = .ok (pg, p')) ∨ p.Get n = .error .ioError := by
  by_cases hok : p.ReadOK n
  · obtain ⟨p', h⟩ := Pager.Get_ok_of_ReadOK p n hn hok
    exact Or.inl ⟨_, p', h⟩
  · exact Or.inr (Pager.Get_fail_of_not_ReadOK p n hn hok)

theorem Pager.Flush_oob (p : Pager) (n : Nat) (h : TableMaxPages < n) :
    p.Flush n = .error .outOfBounds := by
  rw [Pager.Flush, if_pos h]

theorem Pager.Flush_at_max (p : Pager) :
    p.Flush TableMaxPages = .error .pagePanic := by
  rw [Pager.Flush, if_neg (by omega), if_neg (by omega)]

/-- In bounds, `Flush` always succeeds (a missing page is a no-op; a resident
page is written back). -/
theorem Pager.Flush_lt_ok (p : Pager) (n : Nat) (hn : n < TableMaxPages) :
    ∃ p', p.Flush n = .ok p' := by
  rw [Pager.Flush, if_neg (by omega), if_pos hn]
  cases hc : p.pages.getD n none with
  | none => exact ⟨p, rfl⟩
  | some pg => exact ⟨_, rfl⟩

/-- Display arithmetic of the stored key: `uint32` decrement of the stored
`uint32(id+1)` is `id mod 2^32`. -/
theorem display_of_storedKey (a : Nat) :
    ((a + 1) % U32 + (U32 - 1)) % U32 = a % U32 := by
  rw [U32]
  omega

/-! ### Claim theorems -/

/-- Claim C1 (evaluation at the failing input): on the empty file the
recovered row count is 0, as claimed; but on a two-page file whose first page
is full (14 rows) and whose last page holds one non-sentinel row — 15 rows,
which is what the claimed formula `(numberOfPages-1) * RowsPerPage + count`
gives — the code recovers only 1 row, because it divides `numberOfPages - 1`
by `RowsPerPage` instead of multiplying. -/
theorem claimC1_rowCountRecovery_eval :
    emptyPager.numberOfRowsOnDisk = .ok 0 ∧
    pagerC1.numberOfRowsOnDisk = .ok 1 ∧
    (pagerC1.Length / PageSize - 1) * RowsPerPage + countNonSentinel lastPageC1
      = 15 := by
  have hful : fullPageC1.length = 4096 := by
    rw [fullPageC1, List.length_replicate]
  have hone : lastPageC1.length = 4096 := by
    rw [lastPageC1, rowBytesC1, List.length_append, List.length_cons,
      List.length_replicate, List.length_replicate]
  have hcnt : countNonSentinel lastPageC1 = 1 := by decide
  refine ⟨by decide, ?_, ?_⟩
  · have hread : pagerC1.file.readAt 4096 4096 = .ok lastPageC1 := by
      rw [File.readAt, if_neg (by simp [pagerC1])]
      rw [show pagerC1.file.data = fullPageC1 ++ lastPageC1 from rfl,
        List.drop_left' hful, ← hone, List.take_length]
    have hL : pagerC1.Length = 8192 := rfl
    have := numberOfRowsOnDisk_run pagerC1 lastPageC1 (by rw [hL]; norm_num)
      (by rw [hL]; norm_num [PageSize])
      (by rw [hL, show (8192 / PageSize - 1) * PageSize = 4096 from by
            norm_num [PageSize],
          show (PageSize : Nat) = 4096 from rfl]
          exact hread)
      (by rw [hone]; norm_num)
    rw [this, hcnt, hL]
    norm_num [PageSize, RowsPerPage, RowSize]
  · rw [hcnt, show pagerC1.Length = 8192 from rfl]
    rw [show PageSize = 4096 from rfl, rowsPerPage_eq]

/-- Claim C2: `executeInsert` rejects with the table-full result exactly when
`NumRows ≥ TableMaxRows` and then leaves the table (row count, cache, file)
untouched; below capacity it succeeds, increments `NumRows` by one, and (when
the target page loads) stores the serialized row in the slot at index
`NumRows`; and from an empty table exactly `TableMaxRows` inserts succeed
while the next one is rejected as full. -/
theorem claimC2_insert_capacity :
    (∀ (tbl : Table) (row : Row), TableMaxRows ≤ tbl.NumRows →
      tbl.executeInsert row = (.tableFull, tbl)) ∧
    (∀ (tbl : Table) (row : Row), tbl.NumRows < TableMaxRows →
      (tbl.executeInsert row).1 = .success ∧
      (tbl.executeInsert row).2.NumRows = tbl.NumRows + 1) ∧
    (∀ (tbl : Table) (row : Row), tbl.pager.WF → tbl.NumRows < TableMaxRows →
      tbl.pager.ReadOK (tbl.NumRows / RowsPerPage) →
      (tbl.executeInsert row).2.slotView tbl.NumRows = row.Seralize) ∧
    (∀ (tbl : Table) (rows : List Row) (row : Row), tbl.NumRows = 0 →
      rows.length = TableMaxRows →
      (insertSeq tbl rows).1 = List.replicate TableMaxRows .success ∧
      ((insertSeq tbl rows).2.executeInsert row).1 = .tableFull) := by
  refine ⟨Table.executeInsert_full, Table.executeInsert_step,
    Table.executeInsert_writes, ?_⟩
  intro tbl rows row h0 hlen
  obtain ⟨hres, hnum⟩ := insertSeq_success rows tbl (by omega)
  refine ⟨by rw [hres, hlen], ?_⟩
  rw [Table.executeInsert, if_pos (by omega)]

/-- Claim C2 witness: at capacity the insert is rejected with the table
unchanged; below capacity it succeeds on a concrete one-row table; and the
1400-insert scenario from the concrete empty table. -/
theorem claimC2_insert_capacity_witness :
    fullTable.executeInsert rowUser1 = (.tableFull, fullTable) ∧
    ((tableOneRow.executeInsert rowUser1).1 = .success ∧
      (tableOneRow.executeInsert rowUser1).2.NumRows = 2) ∧
    (tableOneRow.executeInsert rowUser1).2.slotView 1 = rowUser1.Seralize ∧
    ((insertSeq emptyTable (List.replicate TableMaxRows rowUser1)).1 =
        List.replicate TableMaxRows .success ∧
      ((insertSeq emptyTable (List.replicate TableMaxRows rowUser1)).2.executeInsert
        rowUser1).1 = .tableFull) :=
  ⟨claimC2_insert_capacity.1 fullTable rowUser1 (by decide),
    claimC2_insert_capacity.2.1 tableOneRow rowUser1 (by decide),
    claimC2_insert_capacity.2.2.1 tableOneRow rowUser1 (by decide) (by decide)
      (by decide),
    claimC2_insert_capacity.2.2.2 emptyTable _ rowUser1 (by decide)
      (by simp)⟩

/-- Claim C3 counterexample: at `pageNum = TableMaxPages` (100) the guard
`pageNum > TableMaxPages` does not reject, yet indexing the 100-entry page
array is invalid (a Go runtime panic, `pagePanic` here): `Get` and `Flush`
return neither the out-of-bounds error nor a within-bounds access. -/
theorem claimC3_counterexample :
    emptyPager.Get TableMaxPages = .error .pagePanic ∧
    emptyPager.Flush TableMaxPages = .error .pagePanic ∧
    (Except.error PagerErr.pagePanic :
      Except PagerErr (Page × Pager)) ≠ .error .outOfBounds ∧
    ¬ TableMaxPages < TableMaxPages := by
  refine ⟨Pager.Get_at_max emptyPager, Pager.Flush_at_max emptyPager, ?_, ?_⟩
  · decide
  · omega

/-- Claim C3 (amended): `Get` and `Flush` return the out-of-bounds error
exactly for `pageNum > TableMaxPages`; for `pageNum < TableMaxPages` the
page-array access is in bounds (no panic — the only outcomes are success or
the I/O error); at exactly `pageNum = TableMaxPages` the guard passes and the
array access is out of range (runtime panic). -/
theorem claimC3_bounds_amended (p : Pager) (n : Nat) :
    (p.Get n = .error .outOfBounds ↔ TableMaxPages < n) ∧
    (p.Flush n = .error .outOfBounds ↔ TableMaxPages < n) ∧
    (n < TableMaxPages →
      p.Get n ≠ .error .pagePanic ∧ p.Flush n ≠ .error .pagePanic) ∧
    (p.Get TableMaxPages = .error .pagePanic ∧
      p.Flush TableMaxPages = .error .pagePanic) := by
  refine ⟨⟨?_, Pager.Get_oob p n⟩, ⟨?_, Pager.Flush_oob p n⟩, ?_,
    Pager.Get_at_max p, Pager.Flush_at_max p⟩
  · intro h
    by_contra hn
    rcases Nat.lt_or_ge n TableMaxPages with hlt | hge
    · rcases Pager.Get_lt_cases p n hlt with ⟨pg, p', hok⟩ | hio
      · rw [hok] at h; cases h
      · rw [hio] at h; cases h
    · have : n = TableMaxPages := by omega
      subst this
      rw [Pager.Get_at_max] at h
      cases h
  · intro h
    by_contra hn
    rcases Nat.lt_or_ge n TableMaxPages with hlt | hge
    · obtain ⟨p', hok⟩ := Pager.Flush_lt_ok p n hlt
      rw [hok] at h; cases h
    · have : n = TableMaxPages := by omega
      subst this
      rw [Pager.Flush_at_max] at h
      cases h
  · intro hlt
    constructor
    · intro h
      rcases Pager.Get_lt_cases p n hlt with ⟨pg, p', hok⟩ | hio
      · rw [hok] at h; cases h
      · rw [hio] at h; cases h
    · intro h
      obtain ⟨p', hok⟩ := Pager.Flush_lt_ok p n hlt
      rw [hok] at h; cases h

/-- Claim C3 witness: the amended bounds characterization at the concrete
empty pager and page numbers 5, 100 and 101. -/
theorem claimC3_bounds_amended_witness :
    (emptyPager.Get 101 = .error .outOfBounds ↔ TableMaxPages < 101) ∧
    (emptyPager.Get 5 ≠ .error .pagePanic ∧
      emptyPager.Flush 5 ≠ .error .pagePanic) ∧
    emptyPager.Get TableMaxPages = .error .pagePanic :=
  ⟨(claimC3_bounds_amended emptyPager 101).1,
    (claimC3_bounds_amended emptyPager 5).2.2.1 (by decide),
    (claimC3_bounds_amended emptyPager TableMaxPages).2.2.2.1⟩

set_option maxRecDepth 4000 in
/-- Claim C4 (evaluation at the failing input): on a one-row table whose
backing file fails the read at offset 0, `insertRow` reports the I/O error,
but `executeInsert` discards it: it still returns the success result and
increments `NumRows` — the failure is not reported to the caller and the
insert is counted, with no row written (the pager is untouched). -/
theorem claimC4_insert_swallows_io_error :
    tableOneRowBad.insertRow 1 rowUser1 = .error .ioError ∧
    tableOneRowBad.executeInsert rowUser1 =
      (.success, { tableOneRowBad with NumRows := 2 }) := by
  constructor
  · decide
  · decide

/-- Claim C5 counterexample: the parser accepts the non-negative id
`4294967295 = 2^32 - 1`, and the stored key `uint32(id + 1)` is 0 — exactly
the sentinel that is supposed to identify a never-written slot. -/
theorem claimC5_counterexample :
    (prepareInsert 4294967295 (strBytes "u") (strBytes "e")).2 = .success ∧
    ((prepareInsert 4294967295 (strBytes "u") (strBytes "e")).1.map Row.ID) =
      some 0 := by
  constructor
  · decide
  · decide

/-- Claim C5 (amended): for every insert accepted by the parser with
non-negative id such that `(id + 1) mod 2^32 ≠ 0` (equivalently
`id mod 2^32 ≠ 2^32 - 1`; in particular every `id < 2^32 - 1`), the stored key
`uint32(id + 1)` is nonzero, so a zero key identifies a never-written slot. -/
theorem claimC5_sentinel_amended (id : Int) (u e : List Nat)
    (hu : u.length ≤ ColumnUsernameSize) (he : e.length ≤ ColumnEmailSize)
    (hid : 0 ≤ id) (hmod : (id.toNat + 1) % U32 ≠ 0) :
    ∃ r, prepareInsert id u e = (some r, .success) ∧
      r.ID = (id.toNat + 1) % U32 ∧ r.ID ≠ 0 := by
  refine ⟨mkRow ((id.toNat + 1) % U32) u e, ?_, rfl, hmod⟩
  exact prepareInsert_accepts id u e hu he hid

/-- Claim C5 witness: the amended sentinel invariant at id 7. -/
theorem claimC5_sentinel_amended_witness :
    ∃ r, prepareInsert 7 (strBytes "u") (strBytes "e") = (some r, .success) ∧
      r.ID = (Int.toNat 7 + 1) % U32 ∧ r.ID ≠ 0 :=
  claimC5_sentinel_amended 7 (strBytes "u") (strBytes "e") (by decide)
    (by decide) (by decide) (by decide)

/-- Claim C6 counterexample: the parser accepts the non-negative id
`4294967296 = 2^32`; the row is stored with key 1 (not `id + 1 = 4294967297`)
and renders its id as 0, not as the user-supplied 4294967296. -/
theorem claimC6_counterexample :
    (prepareInsert 4294967296 (strBytes "u") (strBytes "e")).2 = .success ∧
    ((prepareInsert 4294967296 (strBytes "u") (strBytes "e")).1.map Row.ID) =
      some 1 ∧
    ((prepareInsert 4294967296 (strBytes "u") (strBytes "e")).1.map Row.render)
      = some "(0, u, e)" ∧
    "(0, u, e)" ≠ "(4294967296, u, e)" := by
  exact ⟨by decide, by decide, by decide, by decide⟩

set_option maxRecDepth 4000 in
/-- Claim C6 (amended): every accepted insert stores key
`(id + 1) mod 2^32` and the renderer displays the stored key minus one in
`uint32` arithmetic, i.e. `id mod 2^32` — so for every `id < 2^32` the display
is exactly the user-supplied id; and the concrete transcript holds: insert
`1 user1 person1@example.com` then select prints exactly
`(1, user1, person1@example.com)` and succeeds. -/
theorem claimC6_display_amended :
    (∀ (id : Int) (u e : List Nat), u.length ≤ ColumnUsernameSize →
      e.length ≤ ColumnEmailSize → 0 ≤ id →
      ∃ r, prepareInsert id u e = (some r, .success) ∧
        r.ID = (id.toNat + 1) % U32 ∧
        r.render = "(" ++ toString (id.toNat % U32) ++ ", "
          ++ strOfBytes (truncAtZero r.Username) ++ ", "
          ++ strOfBytes (truncAtZero r.Email) ++ ")" ∧
        (id.toNat < U32 →
          r.render = "(" ++ toString id.toNat ++ ", "
            ++ strOfBytes (truncAtZero r.Username) ++ ", "
            ++ strOfBytes (truncAtZero r.Email) ++ ")")) ∧
    ((prepareInsert 1 (strBytes "user1") (strBytes "person1@example.com")).1
        = some rowUser1 ∧
      ((emptyTable.executeInsert rowUser1).2.executeSelect).1 =
        ["(1, user1, person1@example.com)"] ∧
      ((emptyTable.executeInsert rowUser1).2.executeSelect).2.1 = .success) := by
  constructor
  · intro id u e hu he hid
    refine ⟨mkRow ((id.toNat + 1) % U32) u e,
      prepareInsert_accepts id u e hu he hid, rfl, ?_, ?_⟩
    · rw [Row.render,
        show (mkRow ((id.toNat + 1) % U32) u e).ID = (id.toNat + 1) % U32
          from rfl,
        display_of_storedKey]
    · intro hlt
      rw [Row.render,
        show (mkRow ((id.toNat + 1) % U32) u e).ID = (id.toNat + 1) % U32
          from rfl,
        display_of_storedKey, Nat.mod_eq_of_lt hlt]
  · exact ⟨by decide, by decide, by decide⟩

/-- Claim C6 witness: the amended display relation applied at id 1 (where it
yields the exact display of the user-supplied id). -/
theorem claimC6_display_amended_witness :
    ∃ r, prepareInsert 1 (strBytes "user1") (strBytes "person1@example.com")
        = (some r, .success) ∧
      r.ID = (Int.toNat 1 + 1) % U32 ∧
      r.render = "(" ++ toString (Int.toNat 1 % U32) ++ ", "
        ++ strOfBytes (truncAtZero r.Username) ++ ", "
        ++ strOfBytes (truncAtZero r.Email) ++ ")" ∧
      (Int.toNat 1 < U32 →
        r.render = "(" ++ toString (Int.toNat 1) ++ ", "
          ++ strOfBytes (truncAtZero r.Username) ++ ", "
          ++ strOfBytes (truncAtZero r.Email) ++ ")") :=
  claimC6_display_amended.1 1 (strBytes "user1")
    (strBytes "person1@example.com") (by decide) (by decide) (by decide)

/-- Claim C7: serialize-then-deserialize round-trips the rendered display of
every row with a `uint32` id, a username of at most 32 bytes and an email of
at most 255 bytes (buffers truncated at the first zero byte on display). -/
theorem claimC7_roundtrip (id : Nat) (u e : List Nat) (hid : id < U32)
    (hu : u.length ≤ ColumnUsernameSize) (he : e.length ≤ ColumnEmailSize) :
    (DeseralizeRow (mkRow id u e).Seralize).render = (mkRow id u e).render := by
  rw [DeseralizeRow_Seralize (mkRow id u e) hid (padTo_length _ _)
    (padTo_length _ _)]

set_option maxRecDepth 4000 in
/-- Claim C7 witness: the round-trip at a concrete row. -/
theorem claimC7_roundtrip_witness :
    (DeseralizeRow (mkRow 2 (strBytes "user1")
        (strBytes "person1@example.com")).Seralize).render =
      (mkRow 2 (strBytes "user1") (strBytes "person1@example.com")).render :=
  claimC7_roundtrip 2 (strBytes "user1") (strBytes "person1@example.com")
    (by decide) (by decide) (by decide)

/-- Claim C8: `Pager.Get` load semantics for every in-bounds page number of a
well-formed pager — a cache hit returns the resident page and leaves the
pager unchanged; a cache miss below the on-disk page count whose read does
not fail returns the page whose row slots are exactly the file bytes at
`pageNum * PageSize` (zero-filled past end-of-file) and caches it; a cache
miss at or beyond the on-disk page count returns the all-zero page and caches
it; and a page already fetched successfully is served from the cache
afterwards (same page, pager unchanged), so it is loaded from disk at most
once. -/
theorem claimC8_get_semantics (p : Pager) (n : Nat) (hwf : p.WF)
    (hn : n < TableMaxPages) :
    (∀ pg, p.pages.getD n none = some pg → p.Get n = .ok (pg, p)) ∧
    (p.pages.getD n none = none → n < p.ceilPages →
      n * PageSize ∉ p.file.failOffsets →
      ∃ p', p.Get n = .ok (p.viewPage n, p') ∧
        (∀ r j, r < RowsPerPage → j < RowSize →
          ((p.viewPage n).getD r []).getD j 0 =
            p.file.data.getD (n * PageSize + r * RowSize + j) 0) ∧
        p'.pages.getD n none = some (p.viewPage n)) ∧
    (p.pages.getD n none = none → p.ceilPages ≤ n →
      ∃ p', p.Get n = .ok (zeroPage, p') ∧
        p'.pages.getD n none = some zeroPage) ∧
    (∀ pg p', p.Get n = .ok (pg, p') → p'.Get n = .ok (pg, p')) := by
  refine ⟨fun pg hc => Pager.Get_hit p n hn pg hc, ?_, ?_, ?_⟩
  · intro hc hlt hnf
    have hok : p.ReadOK n := Or.inr (Or.inr hnf)
    obtain ⟨p', hget⟩ := Pager.Get_ok_of_ReadOK p n hn hok
    refine ⟨p', hget, ?_, ?_⟩
    · intro r j hr hj
      rw [Pager.viewPage, hc]
      dsimp only
      rw [if_pos hlt]
      exact loadPage_getD p.file.data (n * PageSize) r j hr hj
    · exact (Pager.Get_ok_state p n _ p' hwf.1 hget).2.2.1
  · intro hc hge
    rw [Pager.Get_miss_fresh p n hn hc hge]
    refine ⟨_, rfl, ?_⟩
    exact getD_set_eq _ _ _ _ (by rw [hwf.1]; exact hn)
  · intro pg p' hget
    have hcached := (Pager.Get_ok_state p n pg p' hwf.1 hget).2.2.1
    exact Pager.Get_hit p' n hn pg hcached

set_option maxRecDepth 4000 in
/-- Claim C8 witness: the four behaviours at concrete pagers — a hit on a
cached page 0, a disk load of page 0 of a one-row file, a fresh zero page at
page 1, and the at-most-once property exercised through the hit. -/
theorem claimC8_get_semantics_witness :
    pagerHit.Get 0 = .ok (zeroPage, pagerHit) ∧
    (∃ p', pagerOneRow.Get 0 = .ok (pagerOneRow.viewPage 0, p') ∧
      (∀ r j, r < RowsPerPage → j < RowSize →
        ((pagerOneRow.viewPage 0).getD r []).getD j 0 =
          pagerOneRow.file.data.getD (0 * PageSize + r * RowSize + j) 0) ∧
      p'.pages.getD 0 none = some (pagerOneRow.viewPage 0)) ∧
    (∃ p', pagerOneRow.Get 1 = .ok (zeroPage, p') ∧
      p'.pages.getD 1 none = some zeroPage) ∧
    pagerHit.Get 0 = .ok (zeroPage, pagerHit) :=
  ⟨(claimC8_get_semantics pagerHit 0 (by decide) (by decide)).1 zeroPage
      (by decide),
    (claimC8_get_semantics pagerOneRow 0 (by decide) (by decide)).2.1
      (by decide) (by decide) (by decide),
    (claimC8_get_semantics pagerOneRow 1 (by decide) (by decide)).2.2.1
      (by decide) (by decide),
    (claimC8_get_semantics pagerHit 0 (by decide) (by decide)).2.2.2 zeroPage
      pagerHit
      ((claimC8_get_semantics pagerHit 0 (by decide) (by decide)).1 zeroPage
        (by decide))⟩

/-- Claim C9: with every page readable, `executeSelect` renders and emits the
rows at indices `0 … NumRows-1` exactly once, in increasing index order
(the output is the index-ordered map over `List.range NumRows`), and
succeeds; and when rows before `k` are readable but row `k`'s (page-aligned)
page read fails, the scan emits exactly rows `0 … k-1`, then the failure
message, and returns the read-failure result. -/
theorem claimC9_select_scan (tbl : Table) (hwf : tbl.pager.WF)
    (hmax : tbl.NumRows ≤ TableMaxRows) :
    ((∀ q, q < TableMaxPages → tbl.pager.ReadOK q) →
      ∃ p', tbl.executeSelect =
        ((List.range tbl.NumRows).map tbl.rowRender, .success,
          { tbl with pager := p' })) ∧
    (∀ k, k < tbl.NumRows → k % RowsPerPage = 0 →
      (∀ i, i < k → tbl.pager.ReadOK (i / RowsPerPage)) →
      ¬ tbl.pager.ReadOK (k / RowsPerPage) →
      ∃ tbl', tbl.executeSelect =
        ((List.range k).map tbl.rowRender ++ ["failed to get row"],
          .failedFile, tbl')) := by
  constructor
  · intro hok
    obtain ⟨p', h, _⟩ := Table.executeSelect_ok tbl hwf hmax hok
    exact ⟨p', h⟩
  · intro k hk hk0 hbefore hfail
    exact Table.executeSelect_fail tbl k hwf hmax hk hk0 hbefore hfail

set_option maxRecDepth 4000 in
/-- Claim C9 witness: the ordered scan of the concrete one-row table, and the
early stop of the same table over the failing file (first row unreadable). -/
theorem claimC9_select_scan_witness :
    (∃ p', tableOneRow.executeSelect =
      ((List.range tableOneRow.NumRows).map tableOneRow.rowRender, .success,
        { tableOneRow with pager := p' })) ∧
    (∃ tbl', tableOneRowBad.executeSelect =
      ((List.range 0).map tableOneRowBad.rowRender ++ ["failed to get row"],
        .failedFile, tbl')) :=
  ⟨(claimC9_select_scan tableOneRow (by decide) (by decide)).1 (by decide),
    (claimC9_select_scan tableOneRowBad (by decide) (by decide)).2 0
      (by decide) (by decide) (by decide) (by decide)⟩

/-- Claim C10: `executeSelect` leaves the row count unchanged, never touches
the backing file (same bytes, same recorded length), leaves the byte content
of every row slot in the read-through view unchanged, and its only state
effect is populating previously-unloaded page-cache slots (each such slot
receives exactly the read-through view of its page). -/
theorem claimC10_select_frame (tbl : Table) (hwf : tbl.pager.WF) :
    ∃ p', tbl.executeSelect.2.2 = { tbl with pager := p' } ∧
      tbl.executeSelect.2.2.NumRows = tbl.NumRows ∧
      p'.file = tbl.pager.file ∧
      p'.Length = tbl.pager.Length ∧
      (∀ i, Table.slotView { tbl with pager := p' } i = tbl.slotView i) ∧
      (∀ m, p'.pages.getD m none = tbl.pager.pages.getD m none ∨
        (tbl.pager.pages.getD m none = none ∧
          p'.pages.getD m none = some (tbl.pager.viewPage m))) := by
  obtain ⟨p', hstate, hev⟩ :=
    selectLoop_frame (tbl.NumRows + 1) tbl tbl.CursorAtStart hwf
  refine ⟨p', hstate, ?_, hev.1, hev.2.1,
    fun i => Table.slotView_congr tbl p' hev i, hev.2.2.2⟩
  rw [show tbl.executeSelect =
    selectLoop (tbl.NumRows + 1) tbl tbl.CursorAtStart from rfl, hstate]

set_option maxRecDepth 4000 in
/-- Claim C10 witness: the frame property at the concrete one-row table. -/
theorem claimC10_select_frame_witness :
    ∃ p', tableOneRow.executeSelect.2.2 = { tableOneRow with pager := p' } ∧
      tableOneRow.executeSelect.2.2.NumRows = tableOneRow.NumRows ∧
      p'.file = tableOneRow.pager.file ∧
      p'.Length = tableOneRow.pager.Length ∧
      (∀ i, Table.slotView { tableOneRow with pager := p' } i =
        tableOneRow.slotView i) ∧
      (∀ m, p'.pages.getD m none = tableOneRow.pager.pages.getD m none ∨
        (tableOneRow.pager.pages.getD m none = none ∧
          p'.pages.getD m none = some (tableOneRow.pager.viewPage m))) :=
  claimC10_select_frame tableOneRow (by decide)

end DbT
